import Mathlib

/-!
Shallow embedding of the `keyedlit` analysis pass
(`src/passes/keyedlit/keyedlit.go`), a static check that reports
unspecified Timeout / KeepAlive fields (or, in strict mode, all exported
fields) in fully keyed struct composite literals.

The host analysis framework (go/ast, go/types, the inspector) supplies
the syntax tree and the type oracle.  We model exactly the data the pass
reads from them:

  * each composite-literal element is either a `KeyValueExpr` (whose key
    is an identifier or some other expression) or a positional element;
  * the literal's declared type expression is an identifier, a selector
    expression, or some other form;
  * the type oracle resolves the literal's underlying type either to a
    struct (an ordered list of field descriptors) or to a non-struct;
  * a field descriptor carries the field's name, the string rendering of
    its declared type (`types.Var.Type().String()`), and the oracle's
    answer to `field.Exported()`.

The traversal visits composite-literal nodes in preorder; we model the
tree as the preorder list of those nodes.  Diagnostics are (position,
message) pairs, produced in emission order.
-/

namespace Keyedlit

/-- The key of a `KeyValueExpr`: either an `*ast.Ident` with a name, or
some other expression (skipped when matching field names). -/
inductive KeyExpr where
  | ident (name : String)
  | nonIdent
deriving DecidableEq, Repr

/-- One element of a composite literal: a `*ast.KeyValueExpr`, or a
positional (non key/value) element. -/
inductive LitElt where
  | kv (key : KeyExpr)
  | positional
deriving DecidableEq, Repr

/-- The literal's declared type expression (`lit.Type`): a
`*ast.SelectorExpr` (we keep the selected identifier `x.Sel`), an
`*ast.Ident`, or any other expression form. -/
inductive TypeExpr where
  | selector (sel : String)
  | ident (name : String)
  | otherExpr
deriving DecidableEq, Repr

/-- A struct field descriptor as the pass reads it from `types.Var`:
`Name()`, `Type().String()`, and the oracle's answer to `Exported()`. -/
structure Field where
  name : String
  typeString : String
  exported : Bool
deriving DecidableEq, Repr

/-- The underlying type of the literal, as resolved by the type oracle
(`pass.TypesInfo.TypeOf(lit).Underlying()`): a `*types.Struct` with its
ordered fields, or anything else. -/
inductive Underlying where
  | structType (fields : List Field)
  | nonStruct
deriving DecidableEq, Repr

/-- A composite-literal node together with everything the pass queries
about it: the filename of its position, its start position, its declared
type expression, its resolved underlying type, and its element list. -/
structure CompositeLit where
  filename : String
  pos : Nat
  typeExpr : TypeExpr
  underlying : Underlying
  elts : List LitElt
deriving DecidableEq, Repr

/-- A reported diagnostic: `pass.Reportf(pos, msg)`. -/
structure Diagnostic where
  pos : Nat
  message : String
deriving DecidableEq, Repr

/-- Is the first character list an initial segment of the second? -/
def charsLeadOf : List Char → List Char → Bool
  | [], _ => true
  | _ :: _, [] => false
  | a :: as, b :: bs => a == b && charsLeadOf as bs

/-- Does the first character list occur contiguously inside the second? -/
def charsWithin (sub : List Char) : List Char → Bool
  | [] => sub.isEmpty
  | b :: bs => charsLeadOf sub (b :: bs) || charsWithin sub bs

/-- `strings.Contains s sub` (case-sensitive substring containment). -/
def strContains (s sub : String) : Bool :=
  charsWithin sub.data s.data

/-- `strings.HasSuffix s suffix`. -/
def strHasSuffix (s suffix : String) : Bool :=
  charsLeadOf suffix.data.reverse s.data.reverse

/-- `mustBeSpecified` from the source: in strict mode a field must be
specified iff it is exported; otherwise iff its name contains
"KeepAlive" or "Timeout" and its type string is exactly "time.Duration". -/
def mustBeSpecified (strictF : Bool) (field : Field) : Bool :=
  if strictF then
    field.exported
  else if strContains field.name "KeepAlive" && (field.typeString == "time.Duration") then
    true
  else if strContains field.name "Timeout" && (field.typeString == "time.Duration") then
    true
  else
    false

/-- The `switch x := lit.Type.(type)` that derives the literal's type
name: a selector yields its final identifier, an identifier yields its
name, anything else makes the pass skip the node (`none`). -/
def typeNameOf : TypeExpr → Option String
  | .selector sel => some sel
  | .ident name => some name
  | .otherExpr => none

/-- The keyedness scan over `lit.Elts`: returns `none` when some element
is not a `KeyValueExpr` (the callback returns early), otherwise `some b`
where `b` is the final value of `isKeyedLiteral` (true iff at least one
element was seen). -/
def scanKeyed : List LitElt → Option Bool
  | [] => some false
  | .kv _ :: rest => (scanKeyed rest).map fun _ => true
  | .positional :: _ => none

/-- The inner loop computing `fieldIsSpecified` for one field name.
Each element is asserted to be a `KeyValueExpr` (`el.(*ast.KeyValueExpr)`);
`none` models that unchecked assertion failing (a panic).  A key that is
not an identifier is skipped; an identifier key equal to the field name
stops the loop with `true`. -/
def fieldSpecifiedIn : List LitElt → String → Option Bool
  | [], _ => some false
  | .positional :: _, _ => none
  | .kv (.ident n) :: rest, fname =>
      if n == fname then some true else fieldSpecifiedIn rest fname
  | .kv .nonIdent :: rest, fname => fieldSpecifiedIn rest fname

/-- The field loop of `run`: walk the struct's fields in declaration
order; for each field that must be specified and is not matched by any
identifier key, emit one diagnostic.  `none` propagates a failed element
type assertion from `fieldSpecifiedIn`. -/
def checkFields (strictF : Bool) (elts : List LitElt) (pos : Nat) (typeName : String) :
    List Field → Option (List Diagnostic)
  | [] => some []
  | field :: rest =>
      if mustBeSpecified strictF field then
        match fieldSpecifiedIn elts field.name with
        | none => none
        | some true => checkFields strictF elts pos typeName rest
        | some false =>
            (checkFields strictF elts pos typeName rest).map fun ds =>
              ⟨pos, "unspecified field " ++ field.name ++ " of " ++ typeName⟩ :: ds
      else
        checkFields strictF elts pos typeName rest

/-- The per-node callback of `run` on one composite literal, in source
order: skip test files; skip non-struct underlying types; skip type
expressions with no derivable name; skip literals that are not keyed;
otherwise run the field loop.  `some ds` is the list of diagnostics the
node emits; `none` models a panic of the element type assertion. -/
def checkLit (strictF : Bool) (lit : CompositeLit) : Option (List Diagnostic) :=
  if strHasSuffix lit.filename "_test.go" then some []
  else
    match lit.underlying with
    | .nonStruct => some []
    | .structType fields =>
        match typeNameOf lit.typeExpr with
        | none => some []
        | some typeName =>
            match scanKeyed lit.elts with
            | none => some []
            | some false => some []
            | some true => checkFields strictF lit.elts lit.pos typeName fields

/-- The whole run: the inspector visits every composite-literal node in
preorder; diagnostics are emitted in visit order.  We model the tree as
its preorder list of composite-literal nodes. -/
def runPass (strictF : Bool) (lits : List CompositeLit) : List Diagnostic :=
  (lits.map fun lit => (checkLit strictF lit).getD []).flatten

/-- Does this element's key (if it is an identifier key) match `fname`? -/
def keyMatches (fname : String) : LitElt → Bool
  | .kv (.ident n) => n == fname
  | _ => false

/-- The diagnostic the field loop emits for one missing field. -/
def diagFor (pos : Nat) (typeName : String) (f : Field) : Diagnostic :=
  ⟨pos, "unspecified field " ++ f.name ++ " of " ++ typeName⟩

/-! Sample literals used as concrete inputs in witnesses and
counterexamples. -/

/-- `Opts{}` with fields `Timeout time.Duration` and `Retries int`
(spec scenario 4). -/
def optsEmptyLit : CompositeLit :=
  ⟨"opts.go", 10, .ident "Opts",
    .structType [⟨"Timeout", "time.Duration", true⟩, ⟨"Retries", "int", true⟩], []⟩

/-- A literal of a struct with a single unexported field
`connTimeout time.Duration`, keyed with one unrelated key. -/
def connLit : CompositeLit :=
  ⟨"conn.go", 7, .ident "Opts",
    .structType [⟨"connTimeout", "time.Duration", false⟩],
    [.kv (.ident "Retries")]⟩

/-- `Client{Addr: "x"}` with fields `Addr string` and
`Timeout time.Duration` (spec scenario 1). -/
def clientLit : CompositeLit :=
  ⟨"client.go", 3, .ident "Client",
    .structType [⟨"Addr", "string", true⟩, ⟨"Timeout", "time.Duration", true⟩],
    [.kv (.ident "Addr")]⟩

/-- `Opts{Retries: 3}` with exported fields `Timeout`, `Retries` and
unexported field `cache` (spec scenario 5, strict mode). -/
def strictOptsLit : CompositeLit :=
  ⟨"opts.go", 5, .ident "Opts",
    .structType [⟨"Timeout", "time.Duration", true⟩, ⟨"Retries", "int", true⟩,
      ⟨"cache", "map[string]string", false⟩],
    [.kv (.ident "Retries")]⟩

/-- A literal with a positional element. -/
def mixedLit : CompositeLit :=
  ⟨"c.go", 4, .ident "Client",
    .structType [⟨"Timeout", "time.Duration", true⟩],
    [.kv (.ident "Addr"), .positional]⟩

/-- A literal in a test file. -/
def testFileLit : CompositeLit :=
  ⟨"c_test.go", 9, .ident "Client",
    .structType [⟨"Timeout", "time.Duration", true⟩],
    [.kv (.ident "Addr")]⟩

/-- A fully keyed literal of a non-struct (map) underlying type. -/
def mapLit : CompositeLit :=
  ⟨"m.go", 2, .ident "Headers", .nonStruct, [.kv (.ident "Accept")]⟩

/-! Helper lemmas about the scan and the field loop. -/

/-- A positional element makes the keyedness scan return early. -/
theorem scanKeyed_none_of_positional (elts : List LitElt)
    (h : LitElt.positional ∈ elts) : scanKeyed elts = none := by
  induction elts with
  | nil => cases h
  | cons e rest ih =>
      cases e with
      | positional => rfl
      | kv k =>
          cases h with
          | tail _ h' => simp [scanKeyed, ih h']

/-- When the keyedness scan succeeds, the `fieldIsSpecified` loop never
hits a failed type assertion and computes exactly "some identifier key
equals the field name". -/
theorem fieldSpecifiedIn_eq_any (fname : String) (elts : List LitElt) (b : Bool)
    (h : scanKeyed elts = some b) :
    fieldSpecifiedIn elts fname = some (elts.any (keyMatches fname)) := by
  induction elts generalizing b with
  | nil => rfl
  | cons e rest ih =>
      cases e with
      | positional => simp [scanKeyed] at h
      | kv k =>
          simp only [scanKeyed] at h
          have hrest : ∃ b', scanKeyed rest = some b' := by
            cases hr : scanKeyed rest with
            | none => rw [hr] at h; simp at h
            | some b' => exact ⟨b', rfl⟩
          obtain ⟨b', hb'⟩ := hrest
          cases k with
          | nonIdent => simp [fieldSpecifiedIn, List.any_cons, keyMatches, ih b' hb']
          | ident n =>
              by_cases hn : (n == fname) = true
              · simp [fieldSpecifiedIn, hn, List.any_cons, keyMatches]
              · simp [fieldSpecifiedIn, hn, List.any_cons, keyMatches, ih b' hb']

/-- Normal form of the field loop on a literal whose keyedness scan
succeeded: one diagnostic, in declaration order, for every must-specify
field matched by no identifier key. -/
theorem checkFields_eq_filterMap (strictF : Bool) (elts : List LitElt) (pos : Nat)
    (tn : String) (b : Bool) (h : scanKeyed elts = some b) (fields : List Field) :
    checkFields strictF elts pos tn fields =
      some (fields.filterMap fun f =>
        if mustBeSpecified strictF f && !(elts.any (keyMatches f.name)) then
          some (diagFor pos tn f)
        else none) := by
  induction fields with
  | nil => rfl
  | cons field rest ih =>
      have hspec := fieldSpecifiedIn_eq_any field.name elts b h
      cases hm : mustBeSpecified strictF field with
      | false =>
          simp only [checkFields, hm, Bool.false_eq_true, if_false, ih,
            List.filterMap_cons, Bool.false_and]
      | true =>
          cases hany : elts.any (keyMatches field.name) with
          | true =>
              rw [hany] at hspec
              simp only [checkFields, hm, eq_self_iff_true, if_true, hspec, ih,
                List.filterMap_cons, Bool.true_and, hany, Bool.not_true,
                Bool.false_eq_true, if_false]
          | false =>
              rw [hany] at hspec
              simp only [checkFields, hm, eq_self_iff_true, if_true, hspec, ih,
                List.filterMap_cons, Bool.true_and, hany, Bool.not_false,
                Option.map_some', diagFor]

/-- Normal form of the per-node check on an accepted literal. -/
theorem checkLit_accepted (strictF : Bool) (lit : CompositeLit) (fields : List Field)
    (tn : String)
    (hTest : strHasSuffix lit.filename "_test.go" = false)
    (hU : lit.underlying = Underlying.structType fields)
    (hT : typeNameOf lit.typeExpr = some tn)
    (hK : scanKeyed lit.elts = some true) :
    checkLit strictF lit = some (fields.filterMap fun f =>
      if mustBeSpecified strictF f && !(lit.elts.any (keyMatches f.name)) then
        some (diagFor lit.pos tn f)
      else none) := by
  unfold checkLit
  simp only [hTest, Bool.false_eq_true, if_false, hU, hT, hK]
  exact checkFields_eq_filterMap strictF lit.elts lit.pos tn true hK fields

/-- The per-node check emits nothing when the keyedness scan does not
end in the accepting state. -/
theorem checkLit_skip (strictF : Bool) (lit : CompositeLit)
    (h : scanKeyed lit.elts ≠ some true) : checkLit strictF lit = some [] := by
  unfold checkLit
  split
  · rfl
  · cases hU : lit.underlying with
    | nonStruct => rfl
    | structType fields =>
        cases hT : typeNameOf lit.typeExpr with
        | none => rfl
        | some tn =>
            cases hK : scanKeyed lit.elts with
            | none => rfl
            | some b =>
                cases b with
                | false => rfl
                | true => exact absurd hK h

/-- The per-node check emits nothing in a test file. -/
theorem checkLit_test (strictF : Bool) (lit : CompositeLit)
    (h : strHasSuffix lit.filename "_test.go" = true) :
    checkLit strictF lit = some [] := by
  unfold checkLit
  simp [h]

/-- In strict mode the field rule is exactly exportedness. -/
theorem mustBeSpecified_strict_eq (f : Field) : mustBeSpecified true f = f.exported := rfl

/-- Boolean normal form of the default-mode field rule. -/
theorem mustBeSpecified_default_eq (f : Field) :
    mustBeSpecified false f =
      ((f.typeString == "time.Duration") &&
        (strContains f.name "KeepAlive" || strContains f.name "Timeout")) := by
  unfold mustBeSpecified
  cases hK : strContains f.name "KeepAlive" <;>
    cases hT : strContains f.name "Timeout" <;>
      cases hD : f.typeString == "time.Duration" <;>
        simp [hK, hT, hD]

/-! The claims. -/

/-- Claim C1, counterexample: `Opts{}` (zero elements, default mode) has
a must-specify field `Timeout`, yet the check emits no diagnostic at
all — the literal is not accepted as fully keyed, contrary to the claim
that every must-specify field of an empty literal is reported. -/
theorem claim_C1_counterexample :
    mustBeSpecified false ⟨"Timeout", "time.Duration", true⟩ = true ∧
      checkLit false optsEmptyLit = some [] := by decide

/-- Claim C1, amended: a struct-typed composite literal with zero
elements is never treated as keyed; the node is skipped and no
diagnostic is emitted, in either mode, even when the struct has
must-specify fields. -/
theorem claim_C1_empty_literal_skipped (strictF : Bool) (lit : CompositeLit)
    (h : lit.elts = []) : checkLit strictF lit = some [] :=
  checkLit_skip strictF lit (by rw [h]; decide)

/-- Witness for the amended claim C1 at the concrete literal `Opts{}`. -/
theorem claim_C1_witness :
    optsEmptyLit.elts = [] ∧ checkLit false optsEmptyLit = some [] :=
  ⟨rfl, claim_C1_empty_literal_skipped false optsEmptyLit rfl⟩

/-- Claim C2, counterexample: in default mode the unexported field
`connTimeout` of type `time.Duration`, absent from a fully keyed
literal, does receive a diagnostic — exportedness is not consulted in
default mode. -/
theorem claim_C2_counterexample :
    (⟨"connTimeout", "time.Duration", false⟩ : Field).exported = false ∧
      checkLit false connLit =
        some [⟨7, "unspecified field connTimeout of Opts"⟩] := by decide

/-- Claim C2, amended: in strict mode, no diagnostic is ever emitted for
an unexported field — every diagnostic of a strict-mode run names an
exported field of the struct. -/
theorem claim_C2_strict_never_unexported (lit : CompositeLit) (fields : List Field)
    (tn : String)
    (hU : lit.underlying = Underlying.structType fields)
    (hT : typeNameOf lit.typeExpr = some tn)
    (d : Diagnostic) (hd : d ∈ (checkLit true lit).getD []) :
    ∃ f ∈ fields, f.exported = true ∧
      d.message = "unspecified field " ++ f.name ++ " of " ++ tn := by
  by_cases hK : scanKeyed lit.elts = some true
  · cases hTest : strHasSuffix lit.filename "_test.go" with
    | true =>
        rw [checkLit_test true lit hTest] at hd
        simp at hd
    | false =>
        rw [checkLit_accepted true lit fields tn hTest hU hT hK] at hd
        simp only [Option.getD_some] at hd
        obtain ⟨f, hf, heq⟩ := List.mem_filterMap.mp hd
        by_cases hc : (mustBeSpecified true f && !(lit.elts.any (keyMatches f.name))) = true
        · rw [if_pos hc] at heq
          injection heq with hdiag
          refine ⟨f, hf, ?_, ?_⟩
          · have hc2 := hc
            simp only [Bool.and_eq_true] at hc2
            exact hc2.1
          · rw [← hdiag]; rfl
        · rw [if_neg hc] at heq
          cases heq
  · rw [checkLit_skip true lit hK] at hd
    simp at hd

/-- Witness for the amended claim C2: in strict mode on
`Opts{Retries: 3}` the emitted diagnostic names the exported field
`Timeout`. -/
theorem claim_C2_witness :
    (⟨5, "unspecified field Timeout of Opts"⟩ : Diagnostic) ∈
        (checkLit true strictOptsLit).getD [] ∧
      ∃ f ∈ [(⟨"Timeout", "time.Duration", true⟩ : Field), ⟨"Retries", "int", true⟩,
          ⟨"cache", "map[string]string", false⟩],
        f.exported = true ∧
          (⟨5, "unspecified field Timeout of Opts"⟩ : Diagnostic).message =
            "unspecified field " ++ f.name ++ " of " ++ "Opts" :=
  ⟨by decide,
    claim_C2_strict_never_unexported strictOptsLit
      [⟨"Timeout", "time.Duration", true⟩, ⟨"Retries", "int", true⟩,
        ⟨"cache", "map[string]string", false⟩]
      "Opts" rfl rfl ⟨5, "unspecified field Timeout of Opts"⟩ (by decide)⟩

/-- Claim C3: in default mode the field rule holds exactly when the
field's declared type string is the named type "time.Duration" and its
name contains the case-sensitive substring "KeepAlive" or "Timeout";
no other field is ever must-specify in default mode. -/
theorem claim_C3_default_rule (f : Field) :
    mustBeSpecified false f = true ↔
      f.typeString = "time.Duration" ∧
        (strContains f.name "KeepAlive" = true ∨ strContains f.name "Timeout" = true) := by
  rw [mustBeSpecified_default_eq]
  simp [Bool.and_eq_true, Bool.or_eq_true, beq_iff_eq, and_comm]

/-- Claim C4: in strict mode the field rule is exportedness, independent
of name and type, and on an accepted literal the check emits exactly one
diagnostic for each exported field matched by no identifier key, in
declaration order. -/
theorem claim_C4_strict_rule (f : Field) (lit : CompositeLit) (fields : List Field)
    (tn : String)
    (hTest : strHasSuffix lit.filename "_test.go" = false)
    (hU : lit.underlying = Underlying.structType fields)
    (hT : typeNameOf lit.typeExpr = some tn)
    (hK : scanKeyed lit.elts = some true) :
    mustBeSpecified true f = f.exported ∧
      checkLit true lit = some (fields.filterMap fun g =>
        if g.exported && !(lit.elts.any (keyMatches g.name)) then
          some (diagFor lit.pos tn g)
        else none) :=
  ⟨rfl, checkLit_accepted true lit fields tn hTest hU hT hK⟩

/-- Witness for claim C4: strict mode on `Opts{Retries: 3}` reports
exactly the exported field `Timeout`, never the unexported `cache`. -/
theorem claim_C4_witness :
    strHasSuffix strictOptsLit.filename "_test.go" = false ∧
      scanKeyed strictOptsLit.elts = some true ∧
      checkLit true strictOptsLit = some [⟨5, "unspecified field Timeout of Opts"⟩] := by
  refine ⟨by decide, by decide, ?_⟩
  have h := claim_C4_strict_rule ⟨"Timeout", "time.Duration", true⟩ strictOptsLit
    [⟨"Timeout", "time.Duration", true⟩, ⟨"Retries", "int", true⟩,
      ⟨"cache", "map[string]string", false⟩]
    "Opts" (by decide) rfl rfl (by decide)
  rw [h.2]
  decide

/-- Claim C5: a composite literal with at least one positional element
produces no diagnostics in any mode — the node is abandoned whole. -/
theorem claim_C5_positional_skipped (strictF : Bool) (lit : CompositeLit)
    (h : LitElt.positional ∈ lit.elts) : checkLit strictF lit = some [] :=
  checkLit_skip strictF lit (by rw [scanKeyed_none_of_positional lit.elts h]; decide)

/-- Witness for claim C5 at the mixed keyed/positional literal. -/
theorem claim_C5_witness :
    LitElt.positional ∈ mixedLit.elts ∧ checkLit false mixedLit = some [] :=
  ⟨by decide, claim_C5_positional_skipped false mixedLit (by decide)⟩

/-- Claim C6: a node whose underlying type is not a struct, or whose
type expression is neither an identifier nor a selector, is silently
skipped with no diagnostics and no failure. -/
theorem claim_C6_unclassified_skipped (strictF : Bool) (lit : CompositeLit)
    (h : lit.underlying = Underlying.nonStruct ∨ lit.typeExpr = TypeExpr.otherExpr) :
    checkLit strictF lit = some [] := by
  unfold checkLit
  split
  · rfl
  · cases h with
    | inl hU => rw [hU]
    | inr hT =>
        cases hU : lit.underlying with
        | nonStruct => rfl
        | structType fields => rw [hT]; rfl

/-- Witness for claim C6 at a fully keyed literal of a map type. -/
theorem claim_C6_witness :
    mapLit.underlying = Underlying.nonStruct ∧ checkLit false mapLit = some [] :=
  ⟨rfl, claim_C6_unclassified_skipped false mapLit (Or.inl rfl)⟩

/-- Claim C7: a composite literal positioned in a file whose name ends
in "_test.go" produces zero diagnostics regardless of content or mode. -/
theorem claim_C7_test_file_skipped (strictF : Bool) (lit : CompositeLit)
    (h : strHasSuffix lit.filename "_test.go" = true) :
    checkLit strictF lit = some [] :=
  checkLit_test strictF lit h

/-- Witness for claim C7 at a literal in a test file. -/
theorem claim_C7_witness :
    strHasSuffix testFileLit.filename "_test.go" = true ∧
      checkLit true testFileLit = some [] :=
  ⟨by decide, claim_C7_test_file_skipped true testFileLit (by decide)⟩

/-- Claim C8: on an accepted fully keyed struct literal the diagnostics
are exactly one per required-but-absent field, in the struct's declared
field order, with message "unspecified field " ++ field name ++ " of "
++ type name, anchored at the literal's start position. -/
theorem claim_C8_diagnostic_form (strictF : Bool) (lit : CompositeLit)
    (fields : List Field) (tn : String)
    (hTest : strHasSuffix lit.filename "_test.go" = false)
    (hU : lit.underlying = Underlying.structType fields)
    (hT : typeNameOf lit.typeExpr = some tn)
    (hK : scanKeyed lit.elts = some true) :
    checkLit strictF lit = some (fields.filterMap fun f =>
      if mustBeSpecified strictF f && !(lit.elts.any (keyMatches f.name)) then
        some (⟨lit.pos, "unspecified field " ++ f.name ++ " of " ++ tn⟩ : Diagnostic)
      else none) :=
  checkLit_accepted strictF lit fields tn hTest hU hT hK

/-- Witness for claim C8: `Client{Addr: "x"}` yields exactly the
diagnostic "unspecified field Timeout of Client" at the literal's
position. -/
theorem claim_C8_witness :
    scanKeyed clientLit.elts = some true ∧
      checkLit false clientLit = some [⟨3, "unspecified field Timeout of Client"⟩] := by
  refine ⟨by decide, ?_⟩
  rw [claim_C8_diagnostic_form false clientLit
    [⟨"Addr", "string", true⟩, ⟨"Timeout", "time.Duration", true⟩] "Client"
    (by decide) rfl rfl (by decide)]
  decide

/-- Claim C9: the check is deterministic — for a fixed tree, oracle data
and mode flag, two runs produce identical diagnostic sequences, order
included. -/
theorem claim_C9_deterministic (strictF : Bool) (lits : List CompositeLit) :
    runPass strictF lits = runPass strictF lits := rfl

/-- Claim C10: the unchecked element type assertion in the
field-matching loop never fails — the per-node check never reaches the
panic branch, on any literal and in any mode. -/
theorem claim_C10_assertion_never_fails (strictF : Bool) (lit : CompositeLit) :
    (checkLit strictF lit).isSome = true := by
  by_cases hK : scanKeyed lit.elts = some true
  · cases hTest : strHasSuffix lit.filename "_test.go" with
    | true => rw [checkLit_test strictF lit hTest]; rfl
    | false =>
        cases hU : lit.underlying with
        | nonStruct => unfold checkLit; rw [hTest, hU]; rfl
        | structType fields =>
            cases hT : typeNameOf lit.typeExpr with
            | none => unfold checkLit; rw [hTest, hU, hT]; rfl
            | some tn =>
                rw [checkLit_accepted strictF lit fields tn hTest hU hT hK]
                rfl
  · rw [checkLit_skip strictF lit hK]
    rfl

end Keyedlit
